import Mathlib

/-!
# Logger configurator `pkg_log.New` (src/pkg/log/log.go)

A shallow embedding of the logging-configuration helper and the properties of
its configuration logic.

* Go strings are sequences of characters here.  The two separators the code
  searches for, `.` and `/`, are single ASCII bytes, which never occur inside a
  multi-byte UTF-8 sequence, so splitting the characters and splitting the
  bytes agree on well-formed text.  The string routines are written over an
  arbitrary alphabet with decidable equality.
* The standard-library and third-party routines the source calls
  (`strings.Split`, `path.Split`, `time.Time.Format`, the `logrus` setters,
  `rotatefilehook.NewRotateFileHook`) are embedded from their Go sources, as far
  as `New` uses them.
* `New` reads the clock and calls the rotation library through an explicit
  environment `Env`.  Theorems that quantify over `Env` hold whatever the
  library returns, so they cover the branch of log.go lines 107-109 as well;
  `libraryEnv` is the environment with the library as it is, whose constructor
  opens no file and returns a nil error.
* `logger.Fatalf` ends the process (the fresh logger's `ExitFunc` is
  `os.Exit`); `New` therefore returns `Except String Logger`, the error being
  the fatal message.
* An option is a Go func value.  `LogOption` is its effect on the
  configuration; `Closure` is the func value with its captured variable, for
  the statement that a call leaves the option as it was.
-/

namespace PkgLog

/-! ## Library routines used by the caller-annotation step -/

/-- Loop of `strings.IndexByte`: scan from the left, `i` is the position of the
head of the remaining input; `-1` when the byte does not occur. -/
def indexFrom {α : Type} [DecidableEq α] (c : α) : List α → Nat → Int
  | [], _ => -1
  | x :: xs, i => if x = c then (i : Int) else indexFrom c xs (i + 1)

/-- `strings.Index(s, sep)` for a one-byte separator. -/
def Index {α : Type} [DecidableEq α] (s : List α) (c : α) : Int :=
  indexFrom c s 0

/-- `strings.Count(s, sep)` for a one-byte separator. -/
def Count {α : Type} [DecidableEq α] (s : List α) (c : α) : Nat :=
  s.count c

/-- The loop of `strings.genSplit`
`for i < n { m := Index(s, sep); if m < 0 { break }; a[i] = s[:m]; s = s[m+len(sep):]; i++ }; a[i] = s; return a[:i+1]`.
The first argument is `n - i`, the number of iterations still allowed, and
`a` holds the slots `a[0..i)` written so far. -/
def genSplitLoop {α : Type} [DecidableEq α] (c : α) : Nat → List α → List (List α) → List (List α)
  | 0, s, a => a ++ [s]
  | k + 1, s, a =>
    let m := Index s c
    if m < 0 then a ++ [s]
    else genSplitLoop c k (s.drop (m.toNat + 1)) (a ++ [s.take m.toNat])

/-- `strings.Split(s, sep)` for a one-byte separator, that is
`genSplit(s, sep, 0, -1)`: `n = Count(s, sep) + 1`, clamped to `len(s) + 1`,
then `n--` and the loop. -/
def Split {α : Type} [DecidableEq α] (s : List α) (c : α) : List (List α) :=
  let n := Count s c + 1
  let n := if n > s.length + 1 then s.length + 1 else n
  genSplitLoop c (n - 1) s []

/-- Loop of `bytealg.LastIndexByteString`:
`for i := len(s) - 1; i >= 0; i-- { if s[i] == c { return i } }; return -1`.
The argument is `i + 1`. -/
def lastIndexLoop {α : Type} [DecidableEq α] (s : List α) (c : α) : Nat → Int
  | 0 => -1
  | i + 1 => if s[i]? = some c then (i : Int) else lastIndexLoop s c i

/-- `bytealg.LastIndexByteString(s, c)`. -/
def LastIndexByte {α : Type} [DecidableEq α] (s : List α) (c : α) : Int :=
  lastIndexLoop s c s.length

/-- `path.Split(path)`: `i := LastIndexByteString(path, '/'); return path[:i+1], path[i+1:]`. -/
def pathSplit {α : Type} [DecidableEq α] (p : List α) (slash : α) : List α × List α :=
  let i := LastIndexByte p slash
  (p.take (i + 1).toNat, p.drop (i + 1).toNat)

/-- Go indexing `a[i]` with an `int` index: out of range (a run-time panic)
is `none`. -/
def index? {β : Type} (a : List β) (i : Int) : Option β :=
  if i < 0 then none else a[i.toNat]?

/-- The fields of `runtime.Frame` the code reads. -/
structure Frame where
  Function : String
  File : String
  Line : Nat
  deriving DecidableEq, Repr

/-- The closure given as `CallerPrettyfier` to each of the three formatters
(log.go lines 66-71, 78-83 and 98-103, textually the same):
`s := strings.Split(f.Function, "."); funcname := s[len(s)-1];
 _, filename := path.Split(f.File); return funcname, filename`. -/
def CallerPrettyfier (f : Frame) : Option (String × String) :=
  let s := Split f.Function.data '.'
  match index? s ((s.length : Int) - 1) with
  | none => none
  | some funcname =>
    let filename := (pathSplit f.File.data '/').2
    some (String.mk funcname, String.mk filename)

/-! ## Configuration and options (log.go lines 14-40) -/

/-- Go `map[string]interface{}` over values of type `V`; `nil` is the zero
value of the map type, `make` a map holding the listed entries. -/
inductive FieldsMap (V : Type) where
  | nil : FieldsMap V
  | make (entries : List (String × V)) : FieldsMap V

/-- Entries held by a map value (`range` over a nil map visits nothing). -/
def FieldsMap.entries {V : Type} : FieldsMap V → List (String × V)
  | .nil => []
  | .make es => es

/-- Go `len(m)`. -/
def FieldsMap.len {V : Type} (m : FieldsMap V) : Nat :=
  m.entries.length

/-- `const Default = "default"`. -/
def Default : String := "default"

/-- `type LogConfig struct`. -/
structure LogConfig (V : Type) where
  IsProduction : Bool
  LogFileName : String
  Fields : FieldsMap V

/-- `type LogOption func(*LogConfig)`: the mutation of the pointed-to
configuration is passed as state. -/
abbrev LogOption (V : Type) := LogConfig V → LogConfig V

/-- `func IsProduction(isProd bool) LogOption`. -/
def IsProduction {V : Type} (isProd : Bool) : LogOption V :=
  fun o => { o with IsProduction := isProd }

/-- `func LogName(logname string) LogOption`. -/
def LogName {V : Type} (logname : String) : LogOption V :=
  fun o => { o with LogFileName := logname }

/-- `func LogAdditionalFields(fields map[string]interface{}) LogOption`. -/
def LogAdditionalFields {V : Type} (fields : FieldsMap V) : LogOption V :=
  fun o => { o with Fields := fields }

/-! ## The logging library, as far as `New` drives it -/

/-- `logrus.Level`, in the library's order. -/
inductive Level where
  | PanicLevel | FatalLevel | ErrorLevel | WarnLevel | InfoLevel | DebugLevel | TraceLevel
  deriving DecidableEq, Repr

/-- Writers a logger can have here: the library default and
`colorable.NewColorableStdout()`. -/
inductive Output where
  | Stderr | ColorableStdout
  deriving DecidableEq, Repr

/-- `time.RFC3339`. -/
def RFC3339 : String := "2006-01-02T15:04:05Z07:00"

/-- `logrus.TextFormatter` and `logrus.JSONFormatter`, with the fields the
source sets; a field left out of a composite literal has its zero value. -/
inductive Formatter where
  | TextFormatter (TimestampFormat : String)
      (CallerPrettyfier : Option (Frame → Option (String × String)))
  | JSONFormatter (TimestampFormat : String) (PrettyPrint : Bool)
      (CallerPrettyfier : Option (Frame → Option (String × String)))

/-- `rotatefilehook.RotateFileConfig`. -/
structure RotateFileConfig where
  Filename : String
  MaxSize : Int
  MaxBackups : Int
  MaxAge : Int
  Level : Level
  Formatter : Formatter

/-- Modelled from the spec: the type `DefaultFieldHook` is declared outside
log.go; the source builds it as `&DefaultFieldHook{lc.Fields}`, and the spec
describes it as the field-injection hook that wraps the additional-fields
mapping.  It is a record of that one mapping. -/
structure DefaultFieldHook (V : Type) where
  Fields : FieldsMap V

/-- The hooks `New` attaches: the hook the rotation library returned for a
configuration (`writer` is the identity of the writer it allocated), and the
field-injection hook. -/
inductive Hook (V : Type) where
  | RotateFile (Config : RotateFileConfig) (writer : Nat) : Hook V
  | DefaultField (hook : DefaultFieldHook V) : Hook V

/-- `logrus.Logger`.  `Hooks` lists the hooks in the order of the `AddHook`
calls (the library files each hook under every level it fires on, keeping
that order). -/
structure Logger (V : Type) where
  Out : Output
  Hooks : List (Hook V)
  Formatter : Formatter
  ReportCaller : Bool
  Level : Level

/-- `logrus.New()`. -/
def logrusNew {V : Type} : Logger V :=
  { Out := .Stderr, Hooks := [], Formatter := .TextFormatter "" none,
    ReportCaller := false, Level := .InfoLevel }

/-- `logger.SetLevel(level)`. -/
def Logger.SetLevel {V : Type} (logger : Logger V) (level : PkgLog.Level) : Logger V :=
  { logger with Level := level }

/-- `logger.SetOutput(output)`. -/
def Logger.SetOutput {V : Type} (logger : Logger V) (output : Output) : Logger V :=
  { logger with Out := output }

/-- `logger.SetFormatter(formatter)`. -/
def Logger.SetFormatter {V : Type} (logger : Logger V) (formatter : PkgLog.Formatter) : Logger V :=
  { logger with Formatter := formatter }

/-- `logger.AddHook(hook)`. -/
def Logger.AddHook {V : Type} (logger : Logger V) (hook : Hook V) : Logger V :=
  { logger with Hooks := logger.Hooks ++ [hook] }

/-! ## Clock and date layout -/

/-- Calendar fields of a `time.Time` in UTC that the layout `"20060102"`
reads. -/
structure Time where
  year : Nat
  month : Nat
  day : Nat
  deriving DecidableEq, Repr

/-- `utod` of package `time`: the digit character of `u`. -/
def utod (u : Nat) : Char := Char.ofNat (48 + u)

/-- `appendInt(b, x, width)` of package `time` for `x >= 0`: the decimal
digits of `x`, zero-padded to `width`. -/
def appendInt (x width : Nat) : List Char :=
  if width = 2 ∧ x < 100 then [utod (x / 10), utod (x % 10)]
  else if width = 4 ∧ x < 10000 then
    [utod (x / 1000), utod (x / 100 % 10), utod (x / 10 % 10), utod (x % 10)]
  else
    let digits := Nat.toDigits 10 x
    List.replicate (width - digits.length) '0' ++ digits

/-- `dt.Format("20060102")`: four-digit year, two-digit month, two-digit day. -/
def Time.Format20060102 (dt : Time) : String :=
  String.mk (appendInt dt.year 4 ++ appendInt dt.month 2 ++ appendInt dt.day 2)

/-- What `New` takes from outside: `time.Now().UTC()` and the rotation
library's constructor, giving the writer of the hook it built or the text of
the error it returned. -/
structure Env where
  now : Time
  NewRotateFileHook : RotateFileConfig → Except String Nat

/-- `rotatefilehook.NewRotateFileHook(config)`:
`hook := RotateFile{Config: config}; hook.logWriter = &lumberjack.Logger{...}; return &hook, nil`.
It stores the configuration, allocates the writer (`writer` is the identity of
the allocated object), opens no file, and its error is always nil. -/
def NewRotateFileHook (writer : Nat) (_config : RotateFileConfig) : Except String Nat :=
  .ok writer

/-- The environment of a run at date `dt`: the clock, and the rotation library
as it is. -/
def libraryEnv (dt : Time) (writer : Nat) : Env :=
  { now := dt, NewRotateFileHook := NewRotateFileHook writer }

/-! ## `New` (log.go lines 42-116) -/

/-- `lc := &LogConfig{}; lc.LogFileName = Default`. -/
def defaultConfig {V : Type} : LogConfig V :=
  let lc : LogConfig V := { IsProduction := false, LogFileName := "", Fields := .nil }
  { lc with LogFileName := Default }

/-- `for _, opt := range logOptions { opt(lc) }`. -/
def applyOptions {V : Type} (logOptions : List (LogOption V)) (lc : LogConfig V) : LogConfig V :=
  logOptions.foldl (fun lc opt => opt lc) lc

/-- Message of `logger.Fatalf("Failed to initialize file rotate hook: %v", err)`. -/
def fatalMessage (err : String) : String :=
  "Failed to initialize file rotate hook: " ++ err

/-- `func New(logOptions ...LogOption) *logrus.Logger`.  `Except.error msg` is
the fatal exit with message `msg`. -/
def New {V : Type} (env : Env) (logOptions : List (LogOption V)) : Except String (Logger V) :=
  let logger : Logger V := logrusNew
  let lc : LogConfig V := applyOptions logOptions defaultConfig
  let level : Level := if lc.IsProduction then .WarnLevel else .TraceLevel
  let logger := logger.SetLevel level
  let logger := logger.SetOutput .ColorableStdout
  let logger := logger.SetFormatter (.TextFormatter RFC3339 (some CallerPrettyfier))
  let logger :=
    if lc.IsProduction then
      logger.SetFormatter (.JSONFormatter RFC3339 true (some CallerPrettyfier))
    else logger
  if !lc.IsProduction then
    let dt := env.now
    let config : RotateFileConfig :=
      { Filename := "app_logs/" ++ dt.Format20060102 ++ "_" ++ lc.LogFileName,
        MaxSize := 50,
        MaxBackups := 3,
        MaxAge := 28,
        Level := .TraceLevel,
        Formatter := .JSONFormatter RFC3339 false (some CallerPrettyfier) }
    match env.NewRotateFileHook config with
    | .error err => .error (fatalMessage err)
    | .ok writer =>
      let logger := logger.AddHook (.RotateFile config writer)
      let logger := logger.AddHook (.DefaultField ⟨lc.Fields⟩)
      .ok logger
  else
    let logger := logger.AddHook (.DefaultField ⟨lc.Fields⟩)
    .ok logger

/-! ## Options as func values with captured variables -/

/-- A Go func value of type `func(*LogConfig)`: the variable it captured and
its body.  A body can assign the captured variable as well as the
configuration, so it returns both. -/
structure Closure (V : Type) where
  Captured : Type
  captured : Captured
  body : Captured → LogConfig V → Captured × LogConfig V

/-- The call `opt(lc)`: the func value and the configuration after it. -/
def Closure.call {V : Type} (opt : Closure V) (lc : LogConfig V) : Closure V × LogConfig V :=
  let r := opt.body opt.captured lc
  ({ opt with captured := r.1 }, r.2)

/-- The effect of one call on the configuration. -/
def Closure.toOption {V : Type} (opt : Closure V) : LogOption V :=
  fun lc => (opt.call lc).2

/-- The func value `IsProduction(isProd)` returns: it captures `isProd` and its
body is `o.IsProduction = isProd`. -/
def Closure.IsProduction {V : Type} (isProd : Bool) : Closure V :=
  { Captured := Bool, captured := isProd,
    body := fun isProd o => (isProd, { o with IsProduction := isProd }) }

/-- The func value `LogName(logname)` returns: it captures `logname` and its
body is `o.LogFileName = logname`. -/
def Closure.LogName {V : Type} (logname : String) : Closure V :=
  { Captured := String, captured := logname,
    body := fun logname o => (logname, { o with LogFileName := logname }) }

/-- The func value `LogAdditionalFields(fields)` returns: it captures `fields`
and its body is `o.Fields = fields`. -/
def Closure.LogAdditionalFields {V : Type} (fields : FieldsMap V) : Closure V :=
  { Captured := FieldsMap V, captured := fields,
    body := fun fields o => (fields, { o with Fields := fields }) }

/-- `for _, opt := range logOptions { opt(lc) }` on func values: the func
values as the loop leaves them, and the configuration it reaches. -/
def callOptions {V : Type} : List (Closure V) → LogConfig V → List (Closure V) × LogConfig V
  | [], lc => ([], lc)
  | opt :: rest, lc =>
    let r := opt.call lc
    let rs := callOptions rest r.2
    (r.1 :: rs.1, rs.2)

/-- A func value that is not one of the package's options: it writes its
captured flag to `IsProduction` and flips the flag, so each call changes it. -/
def Closure.alternating {V : Type} (flag : Bool) : Closure V :=
  { Captured := Bool, captured := flag,
    body := fun flag o => (!flag, { o with IsProduction := flag }) }

/-! ## Vocabulary for stating the properties -/

/-- A call of one of the three option constructors of the package, as written
by a caller of `New`. -/
inductive OptionCall (V : Type) where
  | IsProduction (isProd : Bool) : OptionCall V
  | LogName (logname : String) : OptionCall V
  | LogAdditionalFields (fields : FieldsMap V) : OptionCall V

/-- The option value a constructor call evaluates to. -/
def OptionCall.toOption {V : Type} : OptionCall V → LogOption V
  | .IsProduction isProd => PkgLog.IsProduction isProd
  | .LogName logname => PkgLog.LogName logname
  | .LogAdditionalFields fields => PkgLog.LogAdditionalFields fields

/-- The func value a constructor call evaluates to. -/
def OptionCall.toClosure {V : Type} : OptionCall V → Closure V
  | .IsProduction isProd => Closure.IsProduction isProd
  | .LogName logname => Closure.LogName logname
  | .LogAdditionalFields fields => Closure.LogAdditionalFields fields

/-- Argument of the last `IsProduction` call of a sequence, if there is one. -/
def lastIsProduction {V : Type} (calls : List (OptionCall V)) : Option Bool :=
  (calls.filterMap fun c => match c with
    | .IsProduction b => some b
    | _ => none).getLast?

/-- Argument of the last `LogName` call of a sequence, if there is one. -/
def lastLogName {V : Type} (calls : List (OptionCall V)) : Option String :=
  (calls.filterMap fun c => match c with
    | .LogName n => some n
    | _ => none).getLast?

/-- Argument of the last `LogAdditionalFields` call of a sequence, if there is
one. -/
def lastLogAdditionalFields {V : Type} (calls : List (OptionCall V)) : Option (FieldsMap V) :=
  (calls.filterMap fun c => match c with
    | .LogAdditionalFields f => some f
    | _ => none).getLast?

/-- The rotation configuration `New` builds at date `dt` for file name
`name` (the composite literal of log.go lines 90-105). -/
def expectedRotateConfig (dt : Time) (name : String) : RotateFileConfig :=
  { Filename := "app_logs/" ++ dt.Format20060102 ++ "_" ++ name,
    MaxSize := 50, MaxBackups := 3, MaxAge := 28, Level := .TraceLevel,
    Formatter := .JSONFormatter RFC3339 false (some CallerPrettyfier) }

/-- Kind of a hook, without the writer the library allocated for it. -/
inductive HookShape (V : Type) where
  | RotateFile (Config : RotateFileConfig) : HookShape V
  | DefaultField (Fields : FieldsMap V) : HookShape V

/-- Shape of an attached hook. -/
def Hook.shape {V : Type} : Hook V → HookShape V
  | .RotateFile config _ => .RotateFile config
  | .DefaultField h => .DefaultField h.Fields

/-- Whether a hook is the field-injection hook. -/
def Hook.isDefaultField {V : Type} : Hook V → Bool
  | .RotateFile _ _ => false
  | .DefaultField _ => true

/-- The part of `s` after its last `c`, the whole of `s` when `c` does not
occur: reading from the right, everything before the first `c`. -/
def afterLast {α : Type} [DecidableEq α] (c : α) (s : List α) : List α :=
  (s.reverse.takeWhile (fun x => decide (x ≠ c))).reverse

/-- Relation "`r` is the part of `s` after its last `c`": either `c` does not
occur and `r` is `s`, or `s` is some text, then `c`, then `r`, and `r` has no
`c`. -/
def AfterLast {α : Type} (c : α) (s r : List α) : Prop :=
  (c ∉ s ∧ r = s) ∨ ∃ pre, s = pre ++ c :: r ∧ c ∉ r

/-! ## Lemmas on the string routines -/

theorem indexFrom_spec {α : Type} [DecidableEq α] (c : α) (s : List α) (i : Nat) :
    (indexFrom c s i = -1 ∧ c ∉ s) ∨
      ∃ pre post, s = pre ++ c :: post ∧ c ∉ pre ∧ indexFrom c s i = ((i + pre.length : Nat) : Int) := by
  induction s generalizing i with
  | nil => left; simp [indexFrom]
  | cons x xs ih =>
    by_cases hx : x = c
    · right
      refine ⟨[], xs, by simp [hx], by simp, by simp [indexFrom, hx]⟩
    · rcases ih (i + 1) with ⟨h1, h2⟩ | ⟨pre, post, h1, h2, h3⟩
      · left
        refine ⟨by simp [indexFrom, hx, h1], ?_⟩
        intro hmem
        rcases List.mem_cons.mp hmem with h | h
        · exact hx h.symm
        · exact h2 h
      · right
        refine ⟨x :: pre, post, by simp [h1], ?_, ?_⟩
        · intro hmem
          rcases List.mem_cons.mp hmem with h | h
          · exact hx h.symm
          · exact h2 h
        · simp only [indexFrom, hx, if_false, h3, List.length_cons]
          congr 1
          omega

theorem Index_spec {α : Type} [DecidableEq α] (c : α) (s : List α) :
    (Index s c = -1 ∧ c ∉ s) ∨
      ∃ pre post, s = pre ++ c :: post ∧ c ∉ pre ∧ Index s c = (pre.length : Int) := by
  rcases indexFrom_spec c s 0 with h | ⟨pre, post, h1, h2, h3⟩
  · exact Or.inl h
  · exact Or.inr ⟨pre, post, h1, h2, by simpa [Index] using h3⟩

theorem AfterLast.cons_sep {α : Type} {c : α} {pre post r : List α}
    (h : AfterLast c post r) : AfterLast c (pre ++ c :: post) r := by
  rcases h with ⟨h1, h2⟩ | ⟨p, h1, h2⟩
  · subst h2
    exact Or.inr ⟨pre, rfl, h1⟩
  · subst h1
    exact Or.inr ⟨pre ++ c :: p, by simp, h2⟩

theorem AfterLast.not_mem {α : Type} {c : α} {s r : List α} (h : AfterLast c s r) : c ∉ r := by
  rcases h with ⟨h1, h2⟩ | ⟨p, _, h2⟩
  · subst h2; exact h1
  · exact h2

theorem AfterLast.suffix {α : Type} {c : α} {s r : List α} (h : AfterLast c s r) : r <:+ s := by
  rcases h with ⟨_, h2⟩ | ⟨p, h1, _⟩
  · subst h2; exact List.suffix_refl _
  · subst h1
    exact ⟨p ++ [c], by simp⟩

theorem AfterLast.eq_afterLast {α : Type} [DecidableEq α] {c : α} {s r : List α}
    (h : AfterLast c s r) : r = afterLast c s := by
  have key : ∀ l : List α, c ∉ l → ∀ x ∈ l.reverse, decide (x ≠ c) = true := by
    intro l hl x hx
    have hx2 : x ∈ l := List.mem_reverse.mp hx
    simp only [ne_eq, decide_eq_true_eq]
    intro hxc
    exact hl (hxc ▸ hx2)
  rcases h with ⟨h1, h2⟩ | ⟨p, h1, h2⟩
  · subst h2
    unfold afterLast
    rw [List.takeWhile_eq_self_iff.mpr (key r h1), List.reverse_reverse]
  · subst h1
    unfold afterLast
    have hrev : (p ++ c :: r).reverse = r.reverse ++ c :: p.reverse := by simp
    rw [hrev, List.takeWhile_append_of_pos (key r h2)]
    simp

theorem afterLast_spec {α : Type} [DecidableEq α] (c : α) (s : List α) :
    AfterLast c s (afterLast c s) := by
  induction s using List.reverseRecOn with
  | nil => left; simp [afterLast]
  | append_singleton xs x ih =>
    by_cases hx : x = c
    · subst hx
      right
      refine ⟨xs, ?_, ?_⟩ <;> simp [afterLast]
    · have hstep : afterLast c (xs ++ [x]) = afterLast c xs ++ [x] := by
        simp [afterLast, List.takeWhile_cons, hx]
      rw [hstep]
      rcases ih with ⟨h1, h2⟩ | ⟨p, h1, h2⟩
      · left
        refine ⟨?_, by rw [h2]⟩
        simp only [List.mem_append, List.mem_singleton, not_or]
        exact ⟨h1, fun h => hx h.symm⟩
      · right
        refine ⟨p, ?_, ?_⟩
        · conv_lhs => rw [h1]
          simp
        · simp only [List.mem_append, List.mem_singleton, not_or]
          exact ⟨h2, fun h => hx h.symm⟩

theorem genSplitLoop_spec {α : Type} [DecidableEq α] (c : α) (k : Nat) :
    ∀ (s : List α) (a : List (List α)), s.count c ≤ k →
      ∃ r, genSplitLoop c k s a = (genSplitLoop c k s a).dropLast ++ [r] ∧ AfterLast c s r := by
  induction k with
  | zero =>
    intro s a hk
    have hc : c ∉ s := List.count_eq_zero.mp (Nat.le_zero.mp hk)
    exact ⟨s, by simp [genSplitLoop], Or.inl ⟨hc, rfl⟩⟩
  | succ k ih =>
    intro s a hk
    rcases Index_spec c s with ⟨h1, h2⟩ | ⟨pre, post, h1, h2, h3⟩
    · exact ⟨s, by simp [genSplitLoop, h1], Or.inl ⟨h2, rfl⟩⟩
    · have hnn : ¬ (Index s c < 0) := by rw [h3]; omega
      have htn : (Index s c).toNat = pre.length := by rw [h3]; simp
      have hdrop : s.drop (pre.length + 1) = post := by
        rw [h1]
        simp
      have hcount : post.count c ≤ k := by
        rw [h1] at hk
        simp only [List.count_append, List.count_cons_self] at hk
        omega
      obtain ⟨r, hr1, hr2⟩ := ih post (a ++ [s.take pre.length]) hcount
      refine ⟨r, ?_, ?_⟩
      · simp only [genSplitLoop, hnn, if_false, htn, hdrop]
        exact hr1
      · rw [h1]
        exact hr2.cons_sep

theorem Split_spec {α : Type} [DecidableEq α] (s : List α) (c : α) :
    ∃ r, Split s c = (Split s c).dropLast ++ [r] ∧ AfterLast c s r := by
  have hle : s.count c ≤ s.length := List.count_le_length c s
  have hn : (if Count s c + 1 > s.length + 1 then s.length + 1 else Count s c + 1) - 1
      = s.count c := by
    unfold Count
    split <;> omega
  unfold Split
  simp only [hn]
  exact genSplitLoop_spec c _ s [] (le_refl _)

theorem index?_last {β : Type} (init : List β) (r : β) :
    index? (init ++ [r]) (((init ++ [r]).length : Int) - 1) = some r := by
  have h1 : (((init ++ [r]).length : Int) - 1) = (init.length : Int) := by
    simp
  rw [h1]
  simp [index?]

theorem lastIndexLoop_spec {α : Type} [DecidableEq α] (s : List α) (c : α) (n : Nat) :
    (lastIndexLoop s c n = -1 ∧ c ∉ s.take n) ∨
      ∃ m : Nat, lastIndexLoop s c n = (m : Int) ∧ m < n ∧ s[m]? = some c ∧
        c ∉ (s.take n).drop (m + 1) := by
  induction n with
  | zero => left; simp [lastIndexLoop]
  | succ n ih =>
    by_cases hn : s[n]? = some c
    · right
      refine ⟨n, by simp [lastIndexLoop, hn], Nat.lt_succ_self n, hn, ?_⟩
      have hlen : (s.take (n + 1)).length ≤ n + 1 := by
        rw [List.length_take]; exact Nat.min_le_left _ _
      rw [List.drop_eq_nil_of_le hlen]
      simp
    · have hlast : c ∉ s[n]?.toList := by
        intro hmem
        cases hget : s[n]? with
        | none => rw [hget] at hmem; simp at hmem
        | some y =>
          rw [hget] at hmem hn
          simp only [Option.toList_some, List.mem_singleton] at hmem
          exact hn (by rw [hmem])
      rcases ih with ⟨h1, h2⟩ | ⟨m, h1, h2, h3, h4⟩
      · left
        refine ⟨by simp [lastIndexLoop, hn, h1], ?_⟩
        rw [List.take_succ]
        simp only [List.mem_append, not_or]
        exact ⟨h2, hlast⟩
      · right
        refine ⟨m, by simp [lastIndexLoop, hn, h1], Nat.lt_succ_of_lt h2, h3, ?_⟩
        have hmlen : m < s.length := (List.getElem?_eq_some.mp h3).1
        have hle : m + 1 ≤ (s.take n).length := by
          rw [List.length_take]
          exact Nat.le_min.mpr ⟨h2, hmlen⟩
        rw [List.take_succ, List.drop_append_of_le_length hle]
        simp only [List.mem_append, not_or]
        exact ⟨h4, hlast⟩

theorem pathSplit_spec {α : Type} [DecidableEq α] (p : List α) (slash : α) :
    AfterLast slash p (pathSplit p slash).2 := by
  unfold pathSplit LastIndexByte
  rcases lastIndexLoop_spec p slash p.length with ⟨h1, h2⟩ | ⟨m, h1, _, h3, h4⟩
  · left
    rw [List.take_length] at h2
    refine ⟨h2, ?_⟩
    simp [h1]
  · right
    rw [List.take_length] at h4
    obtain ⟨hlt, hget⟩ := List.getElem?_eq_some.mp h3
    have htn : ((m : Int) + 1).toNat = m + 1 := by omega
    refine ⟨p.take m, ?_, ?_⟩
    · simp only [h1, htn]
      conv_lhs => rw [← List.take_append_drop m p, List.drop_eq_getElem_cons hlt, hget]
    · simp only [h1, htn]
      exact h4

theorem CallerPrettyfier_eq (f : Frame) :
    CallerPrettyfier f =
      some (String.mk (afterLast '.' f.Function.data), String.mk (afterLast '/' f.File.data)) := by
  obtain ⟨r, hr1, hr2⟩ := Split_spec f.Function.data '.'
  have hidx : index? (Split f.Function.data '.')
      (((Split f.Function.data '.').length : Int) - 1) = some r := by
    rw [hr1]
    exact index?_last _ r
  have hfile := (pathSplit_spec f.File.data '/').eq_afterLast
  unfold CallerPrettyfier
  simp only [hidx]
  rw [hr2.eq_afterLast, hfile]

/-! ## Lemmas on option application and on `New` -/

theorem applyOptions_cons {V : Type} (opt : LogOption V) (opts : List (LogOption V))
    (lc : LogConfig V) : applyOptions (opt :: opts) lc = applyOptions opts (opt lc) := rfl

theorem applyOptions_calls {V : Type} (calls : List (OptionCall V)) (lc : LogConfig V) :
    (applyOptions (calls.map OptionCall.toOption) lc).IsProduction
        = (lastIsProduction calls).getD lc.IsProduction ∧
    (applyOptions (calls.map OptionCall.toOption) lc).LogFileName
        = (lastLogName calls).getD lc.LogFileName ∧
    (applyOptions (calls.map OptionCall.toOption) lc).Fields
        = (lastLogAdditionalFields calls).getD lc.Fields := by
  induction calls generalizing lc with
  | nil => simp [applyOptions, lastIsProduction, lastLogName, lastLogAdditionalFields]
  | cons c cs ih =>
    rw [List.map_cons, applyOptions_cons]
    obtain ⟨h1, h2, h3⟩ := ih (c.toOption lc)
    rw [h1, h2, h3]
    cases c <;>
      simp [lastIsProduction, lastLogName, lastLogAdditionalFields, List.filterMap_cons,
        List.getLast?_cons, OptionCall.toOption, IsProduction, LogName, LogAdditionalFields]

theorem New_production {V : Type} (env : Env) (logOptions : List (LogOption V))
    (h : (applyOptions logOptions defaultConfig).IsProduction = true) :
    New env logOptions = .ok
      { Out := .ColorableStdout,
        Hooks := [.DefaultField ⟨(applyOptions logOptions defaultConfig).Fields⟩],
        Formatter := .JSONFormatter RFC3339 true (some CallerPrettyfier),
        ReportCaller := false,
        Level := .WarnLevel } := by
  simp [New, h, logrusNew, Logger.SetLevel, Logger.SetOutput, Logger.SetFormatter,
    Logger.AddHook]

theorem New_development_ok {V : Type} (env : Env) (logOptions : List (LogOption V))
    (writer : Nat)
    (h : (applyOptions logOptions defaultConfig).IsProduction = false)
    (hw : env.NewRotateFileHook
      (expectedRotateConfig env.now (applyOptions logOptions defaultConfig).LogFileName)
        = .ok writer) :
    New env logOptions = .ok
      { Out := .ColorableStdout,
        Hooks := [.RotateFile
            (expectedRotateConfig env.now (applyOptions logOptions defaultConfig).LogFileName)
            writer,
          .DefaultField ⟨(applyOptions logOptions defaultConfig).Fields⟩],
        Formatter := .TextFormatter RFC3339 (some CallerPrettyfier),
        ReportCaller := false,
        Level := .TraceLevel } := by
  unfold expectedRotateConfig at hw
  simp [New, h, hw, logrusNew, Logger.SetLevel, Logger.SetOutput, Logger.SetFormatter,
    Logger.AddHook, expectedRotateConfig]

theorem New_development_error {V : Type} (env : Env) (logOptions : List (LogOption V))
    (err : String)
    (h : (applyOptions logOptions defaultConfig).IsProduction = false)
    (he : env.NewRotateFileHook
      (expectedRotateConfig env.now (applyOptions logOptions defaultConfig).LogFileName)
        = .error err) :
    New env logOptions = .error (fatalMessage err) := by
  unfold expectedRotateConfig at he
  simp [New, h, he]

theorem Format20060102_digits (dt : Time) (hy : dt.year < 10000) (hm : dt.month < 100)
    (hd : dt.day < 100) :
    dt.Format20060102 = String.mk
      [utod (dt.year / 1000), utod (dt.year / 100 % 10), utod (dt.year / 10 % 10),
        utod (dt.year % 10), utod (dt.month / 10), utod (dt.month % 10),
        utod (dt.day / 10), utod (dt.day % 10)] := by
  simp [Time.Format20060102, appendInt, hy, hm, hd]

theorem callOptions_config {V : Type} (logOptions : List (Closure V)) (lc : LogConfig V) :
    (callOptions logOptions lc).2 = applyOptions (logOptions.map Closure.toOption) lc := by
  induction logOptions generalizing lc with
  | nil => rfl
  | cons opt rest ih =>
    rw [List.map_cons, applyOptions_cons]
    exact ih (opt.call lc).2

theorem OptionCall.toClosure_call {V : Type} (c : OptionCall V) (lc : LogConfig V) :
    c.toClosure.call lc = (c.toClosure, c.toOption lc) := by
  cases c <;> rfl

theorem OptionCall.toClosure_toOption {V : Type} (c : OptionCall V) :
    c.toClosure.toOption = c.toOption := by
  funext lc
  cases c <;> rfl

theorem map_toClosure_toOption {V : Type} (calls : List (OptionCall V)) :
    (calls.map OptionCall.toClosure).map Closure.toOption = calls.map OptionCall.toOption := by
  rw [List.map_map]
  apply List.map_congr_left
  intro c _
  exact c.toClosure_toOption

theorem callOptions_package {V : Type} (calls : List (OptionCall V)) (lc : LogConfig V) :
    (callOptions (calls.map OptionCall.toClosure) lc).1 = calls.map OptionCall.toClosure := by
  induction calls generalizing lc with
  | nil => rfl
  | cons c cs ih =>
    simp only [List.map_cons, callOptions, c.toClosure_call lc]
    rw [ih]

theorem Closure.alternating_call_ne {V : Type} (flag : Bool) (lc : LogConfig V) :
    ((Closure.alternating flag : Closure V).call lc).1 ≠ Closure.alternating flag := by
  intro h
  have hc : HEq (!flag) flag := by
    simp only [Closure.call, Closure.alternating, Closure.mk.injEq, true_and] at h
    exact h.1
  have := eq_of_heq hc
  cases flag <;> cases this

theorem New_cases {V : Type} (env : Env) (logOptions : List (LogOption V)) :
    ((applyOptions logOptions defaultConfig).IsProduction = true ∧
      New env logOptions = .ok
        { Out := .ColorableStdout,
          Hooks := [.DefaultField ⟨(applyOptions logOptions defaultConfig).Fields⟩],
          Formatter := .JSONFormatter RFC3339 true (some CallerPrettyfier),
          ReportCaller := false,
          Level := .WarnLevel }) ∨
    ((applyOptions logOptions defaultConfig).IsProduction = false ∧
      ∃ writer, env.NewRotateFileHook
          (expectedRotateConfig env.now (applyOptions logOptions defaultConfig).LogFileName)
            = .ok writer ∧
        New env logOptions = .ok
          { Out := .ColorableStdout,
            Hooks := [.RotateFile
                (expectedRotateConfig env.now (applyOptions logOptions defaultConfig).LogFileName)
                writer,
              .DefaultField ⟨(applyOptions logOptions defaultConfig).Fields⟩],
            Formatter := .TextFormatter RFC3339 (some CallerPrettyfier),
            ReportCaller := false,
            Level := .TraceLevel }) ∨
    ((applyOptions logOptions defaultConfig).IsProduction = false ∧
      ∃ err, env.NewRotateFileHook
          (expectedRotateConfig env.now (applyOptions logOptions defaultConfig).LogFileName)
            = .error err ∧
        New env logOptions = .error (fatalMessage err)) := by
  cases hp : (applyOptions logOptions defaultConfig).IsProduction with
  | true => exact Or.inl ⟨rfl, New_production env logOptions hp⟩
  | false =>
    cases hw : env.NewRotateFileHook
        (expectedRotateConfig env.now (applyOptions logOptions defaultConfig).LogFileName) with
    | error err =>
      exact Or.inr (Or.inr ⟨rfl, err, rfl, New_development_error env logOptions err hp hw⟩)
    | ok writer =>
      exact Or.inr (Or.inl ⟨rfl, writer, rfl, New_development_ok env logOptions writer hp hw⟩)

/-! ## The claims -/

/-- C1: applying a sequence of the package's options in order over the
defaults is last-write-wins per field: `IsProduction` is the argument of the
last `IsProduction` option (`false` if none), `LogFileName` that of the last
`LogName` option (`"default"` if none), `Fields` that of the last
`LogAdditionalFields` option (the nil map of the defaults if none); an option
of one kind sets its own field and leaves the other two as they were; and
`LogName("a")` then `LogName("b")` gives file name `"b"`. -/
theorem C1_options_last_write_wins {V : Type} (calls : List (OptionCall V)) :
    (applyOptions (calls.map OptionCall.toOption) defaultConfig).IsProduction
        = (lastIsProduction calls).getD false ∧
    (applyOptions (calls.map OptionCall.toOption) defaultConfig).LogFileName
        = (lastLogName calls).getD "default" ∧
    (applyOptions (calls.map OptionCall.toOption) defaultConfig).Fields
        = (lastLogAdditionalFields calls).getD FieldsMap.nil ∧
    (∀ (b : Bool) (o : LogConfig V), (IsProduction b o).IsProduction = b ∧
        (IsProduction b o).LogFileName = o.LogFileName ∧ (IsProduction b o).Fields = o.Fields) ∧
    (∀ (n : String) (o : LogConfig V), (LogName n o).LogFileName = n ∧
        (LogName n o).IsProduction = o.IsProduction ∧ (LogName n o).Fields = o.Fields) ∧
    (∀ (f : FieldsMap V) (o : LogConfig V), (LogAdditionalFields f o).Fields = f ∧
        (LogAdditionalFields f o).IsProduction = o.IsProduction ∧
        (LogAdditionalFields f o).LogFileName = o.LogFileName) ∧
    (applyOptions [LogName "a", LogName "b"] (defaultConfig : LogConfig V)).LogFileName = "b" := by
  obtain ⟨h1, h2, h3⟩ := applyOptions_calls calls (defaultConfig : LogConfig V)
  refine ⟨h1, h2, h3, ?_, ?_, ?_, rfl⟩
  · intro b o; exact ⟨rfl, rfl, rfl⟩
  · intro n o; exact ⟨rfl, rfl, rfl⟩
  · intro f o; exact ⟨rfl, rfl, rfl⟩

/-- C2: the threshold of the logger returned by `New` is `WarnLevel` when the
final configuration is production and `TraceLevel` otherwise; it is never any
other level. -/
theorem C2_threshold_by_mode {V : Type} (env : Env) (logOptions : List (LogOption V))
    (logger : Logger V) (h : New env logOptions = .ok logger) :
    logger.Level = (if (applyOptions logOptions defaultConfig).IsProduction
        then Level.WarnLevel else Level.TraceLevel) ∧
    (logger.Level = Level.WarnLevel ∨ logger.Level = Level.TraceLevel) := by
  cases hp : (applyOptions logOptions defaultConfig).IsProduction with
  | true =>
    rw [New_production env logOptions hp] at h
    cases h
    exact ⟨by simp, Or.inl rfl⟩
  | false =>
    cases hw : env.NewRotateFileHook
        (expectedRotateConfig env.now (applyOptions logOptions defaultConfig).LogFileName) with
    | error err =>
      rw [New_development_error env logOptions err hp hw] at h
      cases h
    | ok writer =>
      rw [New_development_ok env logOptions writer hp hw] at h
      cases h
      exact ⟨by simp, Or.inr rfl⟩

/-- C2 at a concrete input: `New(IsProduction(true))` returns a logger, and
its threshold is `WarnLevel`. -/
theorem C2_threshold_by_mode_witness :
    ∃ logger : Logger Nat,
      New (libraryEnv ⟨2026, 11, 4⟩ 7) [IsProduction true] = .ok logger ∧
      logger.Level = Level.WarnLevel :=
  ⟨_, rfl, (C2_threshold_by_mode (libraryEnv ⟨2026, 11, 4⟩ 7) [IsProduction true] _ rfl).1⟩

/-- C3: for every function name and file path, the caller-annotation step
returns the part of the function name after its last `.` (the whole name when
it has none) and the part of the path after its last `/` (the whole path when
it has none); `pkg_log.New.func1` and `/src/pkg/log/log.go` give `func1` and
`log.go`. -/
theorem C3_caller_annotation_last_segments (f : Frame) :
    (∃ funcname filename : String,
      CallerPrettyfier f = some (funcname, filename) ∧
      AfterLast '.' f.Function.data funcname.data ∧
      AfterLast '/' f.File.data filename.data ∧
      funcname.data = afterLast '.' f.Function.data ∧
      filename.data = afterLast '/' f.File.data) ∧
    (∀ line : Nat, CallerPrettyfier ⟨"pkg_log.New.func1", "/src/pkg/log/log.go", line⟩
      = some ("func1", "log.go")) := by
  refine ⟨⟨_, _, CallerPrettyfier_eq f, afterLast_spec _ _, afterLast_spec _ _, rfl, rfl⟩, ?_⟩
  intro line
  rfl

/-- C10: the caller-annotation step never indexes out of range: splitting any
function name on `.` gives a non-empty list, so `s[len(s)-1]` exists and the
step returns a pair; the returned function name has no `.` and is a suffix of
the input name, the returned file name has no `/` and is a suffix of the input
path.  This covers the empty name, names without `.` and names ending in `.`. -/
theorem C10_caller_annotation_total (f : Frame) :
    Split f.Function.data '.' ≠ [] ∧
    (∃ last, index? (Split f.Function.data '.')
        (((Split f.Function.data '.').length : Int) - 1) = some last) ∧
    (∃ funcname filename : String,
      CallerPrettyfier f = some (funcname, filename) ∧
      '.' ∉ funcname.data ∧ funcname.data <:+ f.Function.data ∧
      '/' ∉ filename.data ∧ filename.data <:+ f.File.data) ∧
    (∀ file line, CallerPrettyfier ⟨"", file, line⟩ = some ("", String.mk (afterLast '/' file.data))) ∧
    (∀ line, CallerPrettyfier ⟨"main", "main.go", line⟩ = some ("main", "main.go")) ∧
    (∀ line, CallerPrettyfier ⟨"pkg.T.", "dir/", line⟩ = some ("", "")) := by
  obtain ⟨r, hr1, _⟩ := Split_spec f.Function.data '.'
  have hfn := afterLast_spec '.' f.Function.data
  have hfile := afterLast_spec '/' f.File.data
  refine ⟨?_, ⟨r, ?_⟩, ⟨_, _, CallerPrettyfier_eq f, hfn.not_mem, hfn.suffix, hfile.not_mem,
    hfile.suffix⟩, ?_, ?_, ?_⟩
  · intro hnil
    rw [hnil] at hr1
    simp at hr1
  · rw [hr1]
    exact index?_last _ r
  · intro file line
    rw [CallerPrettyfier_eq]
    rfl
  · intro line
    rfl
  · intro line
    rfl

/-- C4: `New` called with no options works from production = false and file
name `"default"` and returns a logger (the rotation library's constructor
returns no error): its threshold is `TraceLevel`, its primary formatter is the
text formatter, and the rotating-file hook for
`app_logs/<UTC date as YYYYMMDD>_default` is constructed and attached, followed
by the field-injection hook.  The same logger comes out of any environment in
which the constructor succeeds on that configuration. -/
theorem C4_default_logger {V : Type} (dt : Time) (writer : Nat) :
    (defaultConfig : LogConfig V).IsProduction = false ∧
    (defaultConfig : LogConfig V).LogFileName = "default" ∧
    (expectedRotateConfig dt "default").Filename
      = "app_logs/" ++ dt.Format20060102 ++ "_default" ∧
    (∃ logger : Logger V,
      New (libraryEnv dt writer) ([] : List (LogOption V)) = .ok logger ∧
      logger.Level = Level.TraceLevel ∧
      logger.Formatter = Formatter.TextFormatter RFC3339 (some CallerPrettyfier) ∧
      logger.Hooks = [Hook.RotateFile (expectedRotateConfig dt "default") writer,
        Hook.DefaultField ⟨FieldsMap.nil⟩]) ∧
    (∀ env : Env, env.NewRotateFileHook (expectedRotateConfig env.now "default") = .ok writer →
      New env ([] : List (LogOption V)) = .ok
        { Out := Output.ColorableStdout,
          Hooks := [Hook.RotateFile (expectedRotateConfig env.now "default") writer,
            Hook.DefaultField ⟨FieldsMap.nil⟩],
          Formatter := Formatter.TextFormatter RFC3339 (some CallerPrettyfier),
          ReportCaller := false,
          Level := Level.TraceLevel }) := by
  refine ⟨rfl, rfl, ?_, ?_, ?_⟩
  · simp [expectedRotateConfig, String.append_assoc]
  · exact ⟨_, New_development_ok (libraryEnv dt writer) [] writer rfl rfl, rfl, rfl, rfl⟩
  · intro env hw
    exact New_development_ok env [] writer rfl hw

/-- C4 at a concrete input: on 2026-11-04 `New()` returns a logger whose first
hook targets `app_logs/20261104_default`. -/
theorem C4_default_logger_witness :
    (expectedRotateConfig ⟨2026, 11, 4⟩ "default").Filename = "app_logs/20261104_default" ∧
    ∃ logger : Logger Nat,
      New (libraryEnv ⟨2026, 11, 4⟩ 7) ([] : List (LogOption Nat)) = .ok logger ∧
      logger.Level = Level.TraceLevel ∧
      logger.Formatter = Formatter.TextFormatter RFC3339 (some CallerPrettyfier) ∧
      logger.Hooks = [Hook.RotateFile (expectedRotateConfig ⟨2026, 11, 4⟩ "default") 7,
        Hook.DefaultField ⟨FieldsMap.nil⟩] :=
  ⟨by decide, (C4_default_logger ⟨2026, 11, 4⟩ 7).2.2.2.1⟩

/-- C5: whenever the final configuration is production, `New` returns a
logger with threshold `WarnLevel`, the JSON formatter with pretty-printing on
and RFC3339 timestamps as primary formatter, and the field-injection hook as
its only hook: no rotating-file hook is attached.  `IsProduction(true)` alone
gives such a configuration. -/
theorem C5_production_logger {V : Type} (env : Env) (logOptions : List (LogOption V))
    (h : (applyOptions logOptions defaultConfig).IsProduction = true) :
    (∃ logger : Logger V,
      New env logOptions = .ok logger ∧
      logger.Level = Level.WarnLevel ∧
      logger.Formatter = Formatter.JSONFormatter RFC3339 true (some CallerPrettyfier) ∧
      logger.Hooks = [Hook.DefaultField ⟨(applyOptions logOptions defaultConfig).Fields⟩] ∧
      ∀ config writer, Hook.RotateFile config writer ∉ logger.Hooks) ∧
    RFC3339 = "2006-01-02T15:04:05Z07:00" ∧
    (applyOptions [IsProduction true] (defaultConfig : LogConfig V)).IsProduction = true := by
  refine ⟨⟨_, New_production env logOptions h, rfl, rfl, rfl, ?_⟩, rfl, rfl⟩
  intro config writer hmem
  simp at hmem

/-- C5 at a concrete input: `New(IsProduction(true))`. -/
theorem C5_production_logger_witness :
    ∃ logger : Logger Nat,
      New (libraryEnv ⟨2026, 11, 4⟩ 7) [IsProduction true] = .ok logger ∧
      logger.Level = Level.WarnLevel ∧
      logger.Formatter = Formatter.JSONFormatter RFC3339 true (some CallerPrettyfier) ∧
      logger.Hooks = [Hook.DefaultField ⟨FieldsMap.nil⟩] ∧
      ∀ config writer, Hook.RotateFile config writer ∉ logger.Hooks :=
  (C5_production_logger (libraryEnv ⟨2026, 11, 4⟩ 7) [IsProduction true] rfl).1

/-- C6: whenever the final configuration is non-production, whatever the
configured file name and the current UTC date, the configuration handed to the
rotating-file hook has file name `"app_logs/" ++ YYYYMMDD ++ "_" ++ LogFileName`,
max size 50, max backups 3, max age 28, level `TraceLevel`, and the JSON
formatter without pretty-printing; the hook attached on success is the one for
exactly this configuration.  A `LogName` option sets the file name to its
argument as it is, the empty string included, and leaves the mode alone; for
dates of at most four-digit years the date part is the four year digits, two
month digits and two day digits. -/
theorem C6_rotate_hook_config {V : Type} (env : Env) (logOptions : List (LogOption V))
    (h : (applyOptions logOptions defaultConfig).IsProduction = false) :
    (∃ config : RotateFileConfig,
      config.Filename = "app_logs/" ++ env.now.Format20060102 ++ "_"
        ++ (applyOptions logOptions defaultConfig).LogFileName ∧
      config.MaxSize = 50 ∧ config.MaxBackups = 3 ∧ config.MaxAge = 28 ∧
      config.Level = Level.TraceLevel ∧
      config.Formatter = Formatter.JSONFormatter RFC3339 false (some CallerPrettyfier) ∧
      (∀ writer, env.NewRotateFileHook config = .ok writer →
        ∃ logger : Logger V, New env logOptions = .ok logger ∧
          logger.Level = Level.TraceLevel ∧
          logger.Hooks = [Hook.RotateFile config writer,
            Hook.DefaultField ⟨(applyOptions logOptions defaultConfig).Fields⟩]) ∧
      (∀ err, env.NewRotateFileHook config = .error err →
        New env logOptions = .error (fatalMessage err))) ∧
    (∀ n : String,
      (applyOptions (logOptions ++ [LogName n]) defaultConfig).LogFileName = n ∧
      (applyOptions (logOptions ++ [LogName n]) defaultConfig).IsProduction = false) ∧
    (env.now.year < 10000 → env.now.month < 100 → env.now.day < 100 →
      env.now.Format20060102 = String.mk
        [utod (env.now.year / 1000), utod (env.now.year / 100 % 10),
          utod (env.now.year / 10 % 10), utod (env.now.year % 10),
          utod (env.now.month / 10), utod (env.now.month % 10),
          utod (env.now.day / 10), utod (env.now.day % 10)]) := by
  refine ⟨⟨expectedRotateConfig env.now (applyOptions logOptions defaultConfig).LogFileName,
    rfl, rfl, rfl, rfl, rfl, rfl, ?_, ?_⟩, ?_, Format20060102_digits env.now⟩
  · intro writer hw
    exact ⟨_, New_development_ok env logOptions writer h hw, rfl, rfl⟩
  · intro err he
    exact New_development_error env logOptions err h he
  · intro n
    have happ : applyOptions (logOptions ++ [LogName n]) defaultConfig
        = LogName n (applyOptions logOptions defaultConfig) := by
      simp [applyOptions, List.foldl_append]
    rw [happ]
    exact ⟨rfl, h⟩

/-- C6 at a concrete input: `New(LogName(""))` on 2026-11-04 asks for the file
`app_logs/20261104_`. -/
theorem C6_rotate_hook_config_witness :
    ∃ config : RotateFileConfig,
      config.Filename = "app_logs/20261104_" ∧
      config.MaxSize = 50 ∧ config.MaxBackups = 3 ∧ config.MaxAge = 28 ∧
      config.Level = Level.TraceLevel ∧
      config.Formatter = Formatter.JSONFormatter RFC3339 false (some CallerPrettyfier) ∧
      ∃ logger : Logger Nat, New (libraryEnv ⟨2026, 11, 4⟩ 7) [LogName ""] = .ok logger ∧
        logger.Level = Level.TraceLevel ∧
        logger.Hooks = [Hook.RotateFile config 7, Hook.DefaultField ⟨FieldsMap.nil⟩] := by
  obtain ⟨config, h1, h2, h3, h4, h5, h6, h7, _⟩ :=
    (C6_rotate_hook_config (libraryEnv ⟨2026, 11, 4⟩ 7) [(LogName "" : LogOption Nat)] rfl).1
  refine ⟨config, ?_, h2, h3, h4, h5, h6, h7 7 rfl⟩
  rw [h1]
  decide

/-- C7: `New` ends in the fatal exit exactly when the final configuration is
non-production and the rotating-file hook initialisation returns an error; the
fatal message is the fixed text followed by that error; in production mode,
and whenever the initialisation succeeds, `New` returns a logger. -/
theorem C7_fatal_iff_hook_error {V : Type} (env : Env) (logOptions : List (LogOption V)) :
    ((∃ msg, New env logOptions = .error msg) ↔
      ((applyOptions logOptions defaultConfig).IsProduction = false ∧
        ∃ err, env.NewRotateFileHook
          (expectedRotateConfig env.now (applyOptions logOptions defaultConfig).LogFileName)
            = .error err)) ∧
    (∀ msg, New env logOptions = .error msg →
      ∃ err, env.NewRotateFileHook
          (expectedRotateConfig env.now (applyOptions logOptions defaultConfig).LogFileName)
            = .error err ∧
        msg = "Failed to initialize file rotate hook: " ++ err ∧ err.data <:+ msg.data) ∧
    ((applyOptions logOptions defaultConfig).IsProduction = true →
      ∃ logger, New env logOptions = .ok logger) ∧
    (∀ writer, env.NewRotateFileHook
        (expectedRotateConfig env.now (applyOptions logOptions defaultConfig).LogFileName)
          = .ok writer →
      ∃ logger, New env logOptions = .ok logger) := by
  rcases New_cases env logOptions with ⟨hp, hn⟩ | ⟨hp, writer, hw, hn⟩ | ⟨hp, err, he, hn⟩
  · refine ⟨⟨?_, ?_⟩, ?_, fun _ => ⟨_, hn⟩, fun _ _ => ⟨_, hn⟩⟩
    · rintro ⟨msg, hm⟩
      rw [hn] at hm
      cases hm
    · rintro ⟨hf, _⟩
      rw [hp] at hf
      cases hf
    · intro msg hm
      rw [hn] at hm
      cases hm
  · refine ⟨⟨?_, ?_⟩, ?_, fun _ => ⟨_, hn⟩, fun _ _ => ⟨_, hn⟩⟩
    · rintro ⟨msg, hm⟩
      rw [hn] at hm
      cases hm
    · rintro ⟨_, err, he⟩
      rw [hw] at he
      cases he
    · intro msg hm
      rw [hn] at hm
      cases hm
  · refine ⟨⟨fun _ => ⟨hp, err, he⟩, fun _ => ⟨_, hn⟩⟩, ?_, ?_, ?_⟩
    · intro msg hm
      rw [hn] at hm
      cases hm
      refine ⟨err, he, rfl, ?_⟩
      unfold fatalMessage
      rw [String.data_append]
      exact List.suffix_append _ _
    · intro hf
      rw [hp] at hf
      cases hf
    · intro writer hw
      rw [he] at hw
      cases hw

/-- C7 at a concrete input: on 2026-11-04, with the rotation library as it is,
`New(LogName("svc"))` returns a logger and does not end in the fatal exit, and
`New(IsProduction(true))` returns a logger. -/
theorem C7_fatal_iff_hook_error_witness :
    (∃ logger : Logger Nat,
      New (libraryEnv ⟨2026, 11, 4⟩ 7) [LogName "svc"] = .ok logger) ∧
    (¬ ∃ msg, New (libraryEnv ⟨2026, 11, 4⟩ 7) [(LogName "svc" : LogOption Nat)]
      = .error msg) ∧
    ∃ logger : Logger Nat,
      New (libraryEnv ⟨2026, 11, 4⟩ 7) [IsProduction true] = .ok logger := by
  have h := C7_fatal_iff_hook_error (libraryEnv ⟨2026, 11, 4⟩ 7)
    [(LogName "svc" : LogOption Nat)]
  have h2 := C7_fatal_iff_hook_error (libraryEnv ⟨2026, 11, 4⟩ 7)
    [(IsProduction true : LogOption Nat)]
  refine ⟨h.2.2.2 7 rfl, ?_, h2.2.2.1 rfl⟩
  intro hex
  obtain ⟨_, err, he⟩ := h.1.mp hex
  cases he

/-- C8: whenever `New` returns a logger, in either mode, its hook list is the
rotating-file hook (non-production only, at most one) followed by the
field-injection hook, which occurs exactly once, comes last, and carries
exactly the `Fields` of the final configuration; when no
`LogAdditionalFields` option was supplied that mapping is the nil map of the
defaults, which holds no entries. -/
theorem C8_field_hook_attached {V : Type} (env : Env) (logOptions : List (LogOption V))
    (logger : Logger V) (h : New env logOptions = .ok logger) :
    (∃ pre, logger.Hooks
        = pre ++ [Hook.DefaultField ⟨(applyOptions logOptions defaultConfig).Fields⟩] ∧
      (∀ x ∈ pre, ∃ config writer, x = Hook.RotateFile config writer) ∧
      pre.length ≤ 1 ∧
      (pre = [] ↔ (applyOptions logOptions defaultConfig).IsProduction = true)) ∧
    (logger.Hooks.filter Hook.isDefaultField).length = 1 ∧
    (∀ calls : List (OptionCall V), logOptions = calls.map OptionCall.toOption →
      lastLogAdditionalFields calls = none →
        (applyOptions logOptions defaultConfig).Fields = FieldsMap.nil ∧
        (applyOptions logOptions defaultConfig).Fields.len = 0 ∧
        (applyOptions logOptions defaultConfig).Fields.entries = []) := by
  have hfields : ∀ calls : List (OptionCall V), logOptions = calls.map OptionCall.toOption →
      lastLogAdditionalFields calls = none →
        (applyOptions logOptions defaultConfig).Fields = FieldsMap.nil ∧
        (applyOptions logOptions defaultConfig).Fields.len = 0 ∧
        (applyOptions logOptions defaultConfig).Fields.entries = [] := by
    intro calls hc hnone
    have h3 := (applyOptions_calls calls (defaultConfig : LogConfig V)).2.2
    rw [hnone] at h3
    rw [hc, h3]
    exact ⟨rfl, rfl, rfl⟩
  rcases New_cases env logOptions with ⟨hp, hn⟩ | ⟨hp, writer, hw, hn⟩ | ⟨hp, err, he, hn⟩
  · rw [hn] at h
    cases h
    refine ⟨⟨[], rfl, ?_, by simp, ?_⟩, rfl, hfields⟩
    · intro x hx
      cases hx
    · simp [hp]
  · rw [hn] at h
    cases h
    refine ⟨⟨[Hook.RotateFile _ writer], rfl, ?_, by simp, ?_⟩, rfl, hfields⟩
    · intro x hx
      rw [List.mem_singleton] at hx
      exact ⟨_, _, hx⟩
    · simp [hp]
  · rw [hn] at h
    cases h

/-- C8 at a concrete input: `New(LogAdditionalFields({"service": 1}))` returns
a logger whose hooks are the rotating-file hook, then the field-injection hook
with that mapping. -/
theorem C8_field_hook_attached_witness :
    ∃ logger : Logger Nat,
      New (libraryEnv ⟨2026, 11, 4⟩ 7) [LogAdditionalFields (FieldsMap.make [("service", 1)])]
        = .ok logger ∧
      (∃ pre, logger.Hooks = pre ++ [Hook.DefaultField ⟨FieldsMap.make [("service", 1)]⟩] ∧
        pre.length ≤ 1) ∧
      (logger.Hooks.filter Hook.isDefaultField).length = 1 := by
  have h := C8_field_hook_attached (libraryEnv ⟨2026, 11, 4⟩ 7)
    [(LogAdditionalFields (FieldsMap.make [("service", 1)]) : LogOption Nat)] _ rfl
  obtain ⟨⟨pre, h1, _, h3, _⟩, h5, _⟩ := h
  exact ⟨_, rfl, ⟨pre, h1, h3⟩, h5⟩

/-- C9: take a sequence of the package's options as func values, call `New`
with it, and call `New` again at the same UTC date with the func values as the
first call left them, both calls returning.  The first call leaves every func
value as it was (a call of an option assigns the configuration, not the
captured argument), and the two loggers have the same configuration, the one
the options and the date determine: the same threshold, the same primary
formatter with the same settings, the same output, the same hook list up to
the writer the library allocated, and the same rotating-file target path. -/
theorem C9_same_options_same_configuration {V : Type} (env₁ env₂ : Env)
    (calls : List (OptionCall V)) (logger₁ logger₂ : Logger V)
    (hdate : env₁.now = env₂.now)
    (h₁ : New env₁ ((calls.map OptionCall.toClosure).map Closure.toOption) = .ok logger₁)
    (h₂ : New env₂ ((callOptions (calls.map OptionCall.toClosure) defaultConfig).1.map
      Closure.toOption) = .ok logger₂) :
    (callOptions (calls.map OptionCall.toClosure) defaultConfig).1
      = calls.map OptionCall.toClosure ∧
    (∀ (c : OptionCall V) (lc : LogConfig V),
      (c.toClosure.call lc).1 = c.toClosure ∧ (c.toClosure.call lc).2 = c.toOption lc) ∧
    (callOptions (calls.map OptionCall.toClosure) defaultConfig).2
      = applyOptions (calls.map OptionCall.toOption) defaultConfig ∧
    logger₁.Level = (if (lastIsProduction calls).getD false
      then Level.WarnLevel else Level.TraceLevel) ∧
    logger₂.Level = logger₁.Level ∧
    logger₁.Formatter = (if (lastIsProduction calls).getD false
      then Formatter.JSONFormatter RFC3339 true (some CallerPrettyfier)
      else Formatter.TextFormatter RFC3339 (some CallerPrettyfier)) ∧
    logger₂.Formatter = logger₁.Formatter ∧
    logger₁.Out = Output.ColorableStdout ∧
    logger₂.Out = logger₁.Out ∧
    logger₁.Hooks.map Hook.shape =
      (if (lastIsProduction calls).getD false then []
        else [HookShape.RotateFile
          (expectedRotateConfig env₁.now ((lastLogName calls).getD "default"))])
      ++ [HookShape.DefaultField ((lastLogAdditionalFields calls).getD FieldsMap.nil)] ∧
    logger₂.Hooks.map Hook.shape = logger₁.Hooks.map Hook.shape ∧
    (∀ c₁ w₁ c₂ w₂, Hook.RotateFile c₁ w₁ ∈ logger₁.Hooks →
      Hook.RotateFile c₂ w₂ ∈ logger₂.Hooks →
      c₁.Filename = c₂.Filename ∧
      c₁.Filename = "app_logs/" ++ env₁.now.Format20060102 ++ "_"
        ++ (lastLogName calls).getD "default") := by
  have hsame := callOptions_package calls (defaultConfig : LogConfig V)
  have hcfg : (callOptions (calls.map OptionCall.toClosure) defaultConfig).2
      = applyOptions (calls.map OptionCall.toOption) defaultConfig := by
    rw [callOptions_config, map_toClosure_toOption]
  rw [hsame] at h₂
  rw [map_toClosure_toOption] at h₁ h₂
  have hP : (applyOptions (calls.map OptionCall.toOption) defaultConfig).IsProduction
      = (lastIsProduction calls).getD false := (applyOptions_calls calls defaultConfig).1
  have hN : (applyOptions (calls.map OptionCall.toOption) defaultConfig).LogFileName
      = (lastLogName calls).getD "default" := (applyOptions_calls calls defaultConfig).2.1
  have hF : (applyOptions (calls.map OptionCall.toOption) defaultConfig).Fields
      = (lastLogAdditionalFields calls).getD FieldsMap.nil :=
    (applyOptions_calls calls defaultConfig).2.2
  refine ⟨hsame, fun c lc => ⟨by rw [c.toClosure_call], by rw [c.toClosure_call]⟩, hcfg, ?_⟩
  rcases New_cases env₁ (calls.map OptionCall.toOption) with
    ⟨hp, hn⟩ | ⟨hp, writer, hw, hn⟩ | ⟨hp, err, he, hn⟩
  · rw [hn] at h₁
    rw [New_production env₂ _ hp] at h₂
    cases h₁
    cases h₂
    rw [hP] at hp
    rw [hF]
    simp [hp, Hook.shape]
  · rw [hn] at h₁
    cases h₁
    rcases New_cases env₂ (calls.map OptionCall.toOption) with
      ⟨hp2, _⟩ | ⟨_, writer2, _, hn2⟩ | ⟨_, err, _, hn2⟩
    · rw [hp] at hp2
      cases hp2
    · rw [hn2] at h₂
      cases h₂
      rw [hP] at hp
      rw [hN, hF, ← hdate]
      simp only [hp, Hook.shape, expectedRotateConfig, List.map_cons, List.map_nil,
        Bool.false_eq_true, if_false, List.cons_append, List.nil_append, true_and, and_true,
        List.mem_cons, Hook.RotateFile.injEq, List.mem_singleton, reduceCtorEq, or_false,
        List.not_mem_nil]
      rintro c₁ w₁ c₂ w₂ ⟨rfl, _⟩ ⟨rfl, _⟩
      exact ⟨rfl, rfl⟩
    · rw [hn2] at h₂
      cases h₂
  · rw [hn] at h₁
    cases h₁

/-- C9 at a concrete input: two calls of `New(LogName("svc"))` on 2026-11-04,
the second with the func value as the first call left it; the library
allocates different writers, and the loggers agree on everything else. -/
theorem C9_same_options_same_configuration_witness :
    ∃ logger₁ logger₂ : Logger Nat,
      New (libraryEnv ⟨2026, 11, 4⟩ 1) [(Closure.LogName "svc").toOption] = .ok logger₁ ∧
      New (libraryEnv ⟨2026, 11, 4⟩ 2)
        ((callOptions [Closure.LogName "svc"] defaultConfig).1.map Closure.toOption)
          = .ok logger₂ ∧
      (callOptions [(Closure.LogName "svc" : Closure Nat)] defaultConfig).1
        = [Closure.LogName "svc"] ∧
      logger₁.Level = Level.TraceLevel ∧
      logger₂.Level = logger₁.Level ∧
      logger₂.Formatter = logger₁.Formatter ∧
      logger₂.Hooks.map Hook.shape = logger₁.Hooks.map Hook.shape ∧
      logger₁.Hooks = [Hook.RotateFile (expectedRotateConfig ⟨2026, 11, 4⟩ "svc") 1,
        Hook.DefaultField ⟨FieldsMap.nil⟩] ∧
      logger₂.Hooks = [Hook.RotateFile (expectedRotateConfig ⟨2026, 11, 4⟩ "svc") 2,
        Hook.DefaultField ⟨FieldsMap.nil⟩] := by
  have h := C9_same_options_same_configuration (libraryEnv ⟨2026, 11, 4⟩ 1)
    (libraryEnv ⟨2026, 11, 4⟩ 2) [(OptionCall.LogName "svc" : OptionCall Nat)] _ _ rfl rfl rfl
  refine ⟨_, _, rfl, rfl, h.1, h.2.2.2.1, h.2.2.2.2.1, h.2.2.2.2.2.2.1,
    h.2.2.2.2.2.2.2.2.2.2.1, rfl, rfl⟩

end PkgLog
